import Mathlib

/-!
Shallow embedding of the persistent timer scheduling subsystem of Fury-Bot
(`src/utils/timers.py`: `Timer` and `TimerManager`).

The durable store is modelled explicitly: the live `timers` table and the
`timer_storage` archive table are lists of rows, timestamps are integers
counting seconds (UTC), and the JSON payload kept in the `extra` column is a
concrete inductive type.  Coroutines become pure state-passing functions; the
event dispatch sink is modelled by returning the dispatch call that
`bot.dispatch` would receive.
-/

namespace FuryBot

/-- A JSON-serializable value, as stored in the `extra` jsonb column
(`JSONType` in `src/utils/timers.py`).  Objects are association lists. -/
inductive JSON where
  | null : JSON
  | bool (b : Bool) : JSON
  | num (n : Int) : JSON
  | str (s : String) : JSON
  | arr (xs : List JSON) : JSON
  | obj (fields : List (String × JSON)) : JSON

/-- Python `d.get(key, default)` on a JSON object represented as an
association list of string keys to JSON values. -/
def jsonGet (fields : List (String × JSON)) (key : String) (default : JSON) : JSON :=
  match fields.find? (fun kv => kv.fst == key) with
  | some kv => kv.snd
  | none => default

/-- A row of the live `timers` table: `id` (primary key), `event`, `extra`
(jsonb object), `created`, `expires` (UTC timestamps in seconds), `precise`. -/
structure Record where
  id : Nat
  event : String
  extra : List (String × JSON)
  created : Int
  expires : Int
  precise : Bool

/-- A row of the `timer_storage` archive table: same shape as `timers` but
with no id column (`INSERT INTO timer_storage (event, extra, created,
expires, precise)`). -/
structure StorageRow where
  event : String
  extra : List (String × JSON)
  created : Int
  expires : Int
  precise : Bool

/-- The durable store: the live `timers` table, the `timer_storage` archive
table, and the next id the database will assign on insert. -/
structure Store where
  timers : List Record
  timer_storage : List StorageRow
  next_id : Nat

/-- The `TimerNotFound` exception of `src/utils/errors.py`, carrying the id
of the timer that was not found. -/
structure TimerNotFound where
  id : Nat

/-- The in-memory `Timer` object (`src/utils/timers.py`, class `Timer`).
`cs_event_name` models the `_cs_event_name` slot backing the
`cached_slot_property` for `event_name`. -/
structure Timer where
  id : Nat
  args : JSON
  kwargs : JSON
  precise : Bool
  event : String
  created_at : Int
  expires : Int
  extra : List (String × JSON)
  cs_event_name : Option String

/-- `Timer.__init__(record=...)`: fields are read off the record; `args` and
`kwargs` come from `extra.get('args', [])` and `extra.get('kwargs', {})`. -/
def Timer.ofRecord (record : Record) : Timer :=
  { id := record.id
    extra := record.extra
    args := jsonGet record.extra "args" (JSON.arr [])
    kwargs := jsonGet record.extra "kwargs" (JSON.obj [])
    precise := record.precise
    event := record.event
    created_at := record.created
    expires := record.expires
    cs_event_name := none }

/-- The value computed by the `event_name` property:
`f'{self.event}_timer_complete'`. -/
def Timer.event_name (t : Timer) : String :=
  t.event ++ "_timer_complete"

/-- Reading the `event_name` cached slot property: return the cached string
when the `_cs_event_name` slot is filled, otherwise compute the value, store
it in the slot and return it.  The result pairs the returned string with the
(possibly updated) timer object. -/
def Timer.event_name_cached (t : Timer) : String × Timer :=
  match t.cs_event_name with
  | some v => (v, t)
  | none => (t.event_name, { t with cs_event_name := some t.event_name })

/-- `Timer.move_to_storage`: insert a row built from the fields of this
timer object into the `timer_storage` archive table. -/
def Timer.move_to_storage (t : Timer) (s : Store) : Store :=
  { s with
      timer_storage :=
        s.timer_storage ++ [⟨t.event, t.extra, t.created_at, t.expires, t.precise⟩] }

/-- `Timer.delete`: fetch the live row with this id; if none exists raise
`TimerNotFound(self.id)`, otherwise delete the row from the `timers` table. -/
def Timer.delete (t : Timer) (s : Store) : Except TimerNotFound Store :=
  if s.timers.any (fun r => r.id == t.id) then
    Except.ok { s with timers := s.timers.filter (fun r => r.id != t.id) }
  else
    Except.error ⟨t.id⟩

/-- The argument shape handed to `bot.dispatch`: either the unpacked
`*timer.args, **timer.kwargs` (when `precise`), or the timer object itself
as the sole argument. -/
inductive DispatchArgs where
  | unpacked (args kwargs : JSON) : DispatchArgs
  | timer (t : Timer) : DispatchArgs

/-- One call made to the dispatch sink: the derived event name and the
arguments passed along with it. -/
structure Dispatch where
  event_name : String
  payload : DispatchArgs

/-- `TimerManager.call_timer`: try `timer.delete()`; on `TimerNotFound`
return without dispatching (store unchanged, no dispatch).  Otherwise move
the timer to storage and dispatch `timer.event_name` with either the
unpacked args and kwargs (`precise`) or the timer itself. -/
def TimerManager.call_timer (timer : Timer) (s : Store) : Store × Option Dispatch :=
  match timer.delete s with
  | Except.error _ => (s, none)
  | Except.ok s1 =>
    let s2 := timer.move_to_storage s1
    let named := timer.event_name_cached
    if timer.precise then
      (s2, some ⟨named.1, DispatchArgs.unpacked timer.args timer.kwargs⟩)
    else
      (s2, some ⟨named.1, DispatchArgs.timer named.2⟩)

/-- The earliest row of a list by the `expires` column (`ORDER BY expires
LIMIT 1`); ties resolve to the earlier list position, matching the
unspecified tie order of the SQL query. -/
def selectEarliest : List Record → Option Record
  | [] => none
  | r :: rs =>
    match selectEarliest rs with
    | none => some r
    | some m => if r.expires ≤ m.expires then some r else some m

/-- `TimerManager.get_active_timer`: the single live row whose `expires`
falls strictly before `now + days` (an interval of `days * 86400` seconds),
earliest first, turned into a `Timer`; none when no row qualifies. -/
def TimerManager.get_active_timer (s : Store) (now : Int) (days : Int) : Option Timer :=
  (selectEarliest (s.timers.filter (fun r => decide (r.expires < now + days * 86400)))).map
    Timer.ofRecord

/-- The scheduler state owned by a `TimerManager`: the store it talks to,
the `_have_data` event flag, the `_current_timer` marker, and a counter of
how many times the background dispatch task was cancelled and recreated. -/
structure SchedState where
  store : Store
  have_data : Bool
  current_timer : Option Timer
  task_restarts : Nat

/-- `TimerManager.wait_for_active_timers`: query for an active timer; if one
exists set `_have_data` and return it at once.  Otherwise clear `_have_data`
and `_current_timer`, block on the `_have_data` event, and return the result
of re-running the query.  `retry_store` and `retry_now` are the store
contents and clock at the moment the blocked waiter is woken. -/
def TimerManager.wait_for_active_timers (st : SchedState) (now : Int) (days : Int)
    (retry_store : Store) (retry_now : Int) : Option Timer × SchedState :=
  match TimerManager.get_active_timer st.store now days with
  | some t => (some t, { st with have_data := true })
  | none =>
    (TimerManager.get_active_timer retry_store retry_now days,
     { st with store := retry_store, have_data := true, current_timer := none })

/-- `TimerManager.create_timer`: insert a row `(event, {args, kwargs}, when,
now, precise)` into `timers` (the database assigns the next id), set the
`_have_data` event when the delay fits the 40-day wait horizon, cancel and
recreate the dispatch task when the new expiry is strictly earlier than the
expiry of `_current_timer`, and return the `Timer` built from the returned
row. -/
def TimerManager.create_timer (st : SchedState) (when now : Int) (event : String)
    (args : List JSON) (kwargs : List (String × JSON)) (precise : Bool) :
    Timer × SchedState :=
  let extra : List (String × JSON) := [("args", JSON.arr args), ("kwargs", JSON.obj kwargs)]
  let row : Record :=
    { id := st.store.next_id, event := event, extra := extra
      created := now, expires := when, precise := precise }
  let store1 : Store :=
    { st.store with timers := st.store.timers ++ [row], next_id := st.store.next_id + 1 }
  let delta : Int := when - now
  let have_data1 : Bool := if delta ≤ 86400 * 40 then true else st.have_data
  let preempt : Bool :=
    match st.current_timer with
    | some ct => decide (when < ct.expires)
    | none => false
  (Timer.ofRecord row,
   { store := store1
     have_data := have_data1
     current_timer := st.current_timer
     task_restarts := if preempt then st.task_restarts + 1 else st.task_restarts })

/-- The body of one pass of the dispatch loop once a timer is in hand
(`dispatch_timers`, lines 339 to 346): sleep only when `expires >= now`, for
`expires - now` seconds, then run `call_timer`.  Returns the sleep duration
(none when the timer is overdue and no sleep happens) together with the
effect of `call_timer`. -/
def TimerManager.loop_iteration (timer : Timer) (now : Int) (s : Store) :
    Option Int × (Store × Option Dispatch) :=
  let to_sleep := if timer.expires ≥ now then some (timer.expires - now) else none
  (to_sleep, TimerManager.call_timer timer s)

/-- The dispatch loop `TimerManager.dispatch_timers` run to completion with
no concurrent writers, returning the timers handed to the dispatch sink in
order.  Each pass waits for an active timer in the 40-day horizon, sleeps
until its expiry (the clock advances to `max now expires`), and runs
`call_timer`; the loop ends when no timer is within the horizon (the real
loop then blocks on `_have_data`).  `fuel` bounds the number of passes. -/
def TimerManager.dispatch_timers : Nat → Int → Store → List Timer
  | 0, _, _ => []
  | Nat.succ fuel, now, s =>
    match TimerManager.get_active_timer s now 40 with
    | none => []
    | some timer =>
      let step := TimerManager.call_timer timer s
      let rest := TimerManager.dispatch_timers fuel (max now timer.expires) step.1
      if step.2.isSome then timer :: rest else rest

/-! Sample data used by the concrete witnesses. -/

/-- A concrete live-table row used as test data. -/
def sampleRecord : Record :=
  { id := 1, event := "ping"
    extra := [("args", JSON.arr [JSON.num 1]), ("kwargs", JSON.obj [("y", JSON.bool true)])]
    created := 0, expires := 100, precise := true }

/-- A store holding exactly `sampleRecord` in the live table. -/
def sampleStore : Store := { timers := [sampleRecord], timer_storage := [], next_id := 2 }

/-- The timer object constructed from `sampleRecord`. -/
def sampleTimer : Timer := Timer.ofRecord sampleRecord

/-- A record whose `extra` payload has neither an `args` nor a `kwargs` key. -/
def bareRecord : Record :=
  { id := 7, event := "ping", extra := [], created := 0, expires := 5, precise := false }

/-- A second concrete live-table row, expiring before `sampleRecord`. -/
def sampleRecord2 : Record :=
  { id := 2, event := "pong", extra := [], created := 0, expires := 50, precise := false }

/-- A store holding `sampleRecord` and `sampleRecord2` in the live table. -/
def twoStore : Store :=
  { timers := [sampleRecord, sampleRecord2], timer_storage := [], next_id := 3 }

/-- A scheduler state currently tracking `sampleTimer`. -/
def sampleSched : SchedState :=
  { store := sampleStore, have_data := false, current_timer := some sampleTimer
    task_restarts := 0 }

/-- A scheduler state over an empty store, tracking nothing. -/
def initSched : SchedState :=
  { store := { timers := [], timer_storage := [], next_id := 0 }, have_data := false
    current_timer := none, task_restarts := 0 }

/-- A scheduler state over `sampleStore`, tracking nothing. -/
def waiterSched : SchedState :=
  { store := sampleStore, have_data := false, current_timer := none, task_restarts := 0 }

/-! Helper lemmas about the embedded operations. -/

/-- A live row with the id of `t` makes the existence check of
`Timer.delete` succeed. -/
theorem any_id_of_mem {t : Timer} {s : Store} (h : ∃ r ∈ s.timers, r.id = t.id) :
    s.timers.any (fun r => r.id == t.id) = true := by
  obtain ⟨r, hr, hid⟩ := h
  exact List.any_eq_true.mpr ⟨r, hr, by simpa using hid⟩

/-- `Timer.delete` raises exactly when no live row carries the id of `t`. -/
theorem delete_eq_error_iff {t : Timer} {s : Store} :
    Timer.delete t s = Except.error ⟨t.id⟩ ↔ ∀ r ∈ s.timers, r.id ≠ t.id := by
  unfold Timer.delete
  by_cases h : s.timers.any (fun r => r.id == t.id) = true
  · rw [if_pos h]
    rw [List.any_eq_true] at h
    obtain ⟨r, hr, hid⟩ := h
    simp only [beq_iff_eq] at hid
    constructor
    · intro habs; exact absurd habs (by simp)
    · intro hall; exact absurd hid (hall r hr)
  · rw [if_neg h]
    rw [List.any_eq_true] at h
    push_neg at h
    constructor
    · intro _ r hr
      intro he
      exact absurd (by simpa using he) (h r hr)
    · intro _; rfl

/-- Successful `Timer.delete` filters the live table on the id of `t`. -/
theorem delete_eq_ok {t : Timer} {s : Store}
    (h : s.timers.any (fun r => r.id == t.id) = true) :
    Timer.delete t s
      = Except.ok { s with timers := s.timers.filter (fun r => r.id != t.id) } := by
  unfold Timer.delete
  rw [if_pos h]

/-- Inversion for successful `Timer.delete`. -/
theorem delete_eq_ok_inv {t : Timer} {s s1 : Store}
    (h : Timer.delete t s = Except.ok s1) :
    s1 = { s with timers := s.timers.filter (fun r => r.id != t.id) } := by
  unfold Timer.delete at h
  by_cases hc : s.timers.any (fun r => r.id == t.id) = true
  · rw [if_pos hc] at h
    exact (Except.ok.injEq _ _ ▸ congrArg id h : _) ▸ by
      cases h
      rfl
  · rw [if_neg hc] at h
    exact absurd h (by simp)

/-- `TimerManager.call_timer` on a timer whose id is live: the live row is
deleted, the archive receives the fields of the timer, and a dispatch is
produced. -/
theorem call_timer_found {t : Timer} {s : Store}
    (h : s.timers.any (fun r => r.id == t.id) = true) :
    TimerManager.call_timer t s =
      ({ timers := s.timers.filter (fun r => r.id != t.id)
         timer_storage :=
           s.timer_storage ++ [⟨t.event, t.extra, t.created_at, t.expires, t.precise⟩]
         next_id := s.next_id },
       some ⟨(t.event_name_cached).1,
             if t.precise then DispatchArgs.unpacked t.args t.kwargs
             else DispatchArgs.timer (t.event_name_cached).2⟩) := by
  unfold TimerManager.call_timer
  rw [delete_eq_ok h]
  unfold Timer.move_to_storage
  dsimp only
  by_cases hp : t.precise = true
  · simp only [if_pos hp]
  · simp only [if_neg hp]

/-- `TimerManager.call_timer` on a timer with no live row: no state change
and no dispatch. -/
theorem call_timer_not_found {t : Timer} {s : Store}
    (h : Timer.delete t s = Except.error ⟨t.id⟩) :
    TimerManager.call_timer t s = (s, none) := by
  unfold TimerManager.call_timer
  rw [h]

/-- `selectEarliest` returns none exactly on the empty list. -/
theorem selectEarliest_eq_none {l : List Record} : selectEarliest l = none ↔ l = [] := by
  cases l with
  | nil => simp [selectEarliest]
  | cons r rs =>
    simp only [selectEarliest]
    cases h : selectEarliest rs with
    | none => simp
    | some m => by_cases hle : r.expires ≤ m.expires <;> simp [hle]

/-- The row returned by `selectEarliest` is a member of the list. -/
theorem selectEarliest_mem {l : List Record} {m : Record}
    (h : selectEarliest l = some m) : m ∈ l := by
  induction l with
  | nil => simp [selectEarliest] at h
  | cons r rs ih =>
    simp only [selectEarliest] at h
    cases hrs : selectEarliest rs with
    | none =>
      rw [hrs] at h
      simp only [Option.some.injEq] at h
      subst h
      exact List.mem_cons_self r rs
    | some m0 =>
      rw [hrs] at h
      dsimp only at h
      by_cases hle : r.expires ≤ m0.expires
      · rw [if_pos hle] at h
        simp only [Option.some.injEq] at h
        subst h
        exact List.mem_cons_self r rs
      · rw [if_neg hle] at h
        simp only [Option.some.injEq] at h
        subst h
        exact List.mem_cons_of_mem r (ih hrs)

/-- The row returned by `selectEarliest` has the least `expires` value. -/
theorem selectEarliest_min {l : List Record} :
    ∀ {m : Record}, selectEarliest l = some m → ∀ r ∈ l, m.expires ≤ r.expires := by
  induction l with
  | nil => intro m h; simp [selectEarliest] at h
  | cons r rs ih =>
    intro m h
    simp only [selectEarliest] at h
    cases hrs : selectEarliest rs with
    | none =>
      rw [hrs] at h
      simp only [Option.some.injEq] at h
      subst h
      have hnil : rs = [] := selectEarliest_eq_none.mp hrs
      subst hnil
      intro x hx
      simp only [List.mem_singleton] at hx
      subst hx
      exact le_refl _
    | some m0 =>
      rw [hrs] at h
      dsimp only at h
      by_cases hle : r.expires ≤ m0.expires
      · rw [if_pos hle] at h
        simp only [Option.some.injEq] at h
        subst h
        intro x hx
        rcases List.mem_cons.mp hx with hx | hx
        · subst hx; exact le_refl _
        · exact le_trans hle (ih hrs x hx)
      · rw [if_neg hle] at h
        simp only [Option.some.injEq] at h
        subst h
        intro x hx
        rcases List.mem_cons.mp hx with hx | hx
        · subst hx; exact le_of_lt (not_le.mp hle)
        · exact ih hrs x hx

/-- `get_active_timer` finds nothing exactly when no live row lies in the
lookahead window. -/
theorem get_active_timer_none_iff {s : Store} {now days : Int} :
    TimerManager.get_active_timer s now days = none ↔
      ∀ r ∈ s.timers, ¬ r.expires < now + days * 86400 := by
  unfold TimerManager.get_active_timer
  rw [Option.map_eq_none', selectEarliest_eq_none, List.filter_eq_nil_iff]
  simp

/-- Inversion for a successful `get_active_timer`: the timer comes from a
live row in the window with minimal expiry among the rows in the window. -/
theorem get_active_timer_some {s : Store} {now days : Int} {t : Timer}
    (h : TimerManager.get_active_timer s now days = some t) :
    ∃ r ∈ s.timers, t = Timer.ofRecord r ∧ r.expires < now + days * 86400 ∧
      ∀ u ∈ s.timers, u.expires < now + days * 86400 → r.expires ≤ u.expires := by
  unfold TimerManager.get_active_timer at h
  rw [Option.map_eq_some'] at h
  obtain ⟨r, hr, hrt⟩ := h
  have hmem := selectEarliest_mem hr
  have hmin := selectEarliest_min hr
  rw [List.mem_filter] at hmem
  refine ⟨r, hmem.1, hrt.symm, by simpa using hmem.2, ?_⟩
  intro u hu hwin
  exact hmin u (List.mem_filter.mpr ⟨hu, by simpa using hwin⟩)

/-- The timer found by `get_active_timer` has minimal expiry among all live
rows, in and out of the window. -/
theorem get_active_timer_min {s : Store} {now days : Int} {t : Timer}
    (h : TimerManager.get_active_timer s now days = some t) :
    ∀ u ∈ s.timers, t.expires ≤ u.expires := by
  obtain ⟨r, hrmem, hrt, hwin, hmin⟩ := get_active_timer_some h
  subst hrt
  intro u hu
  show r.expires ≤ u.expires
  by_cases hc : u.expires < now + days * 86400
  · exact hmin u hu hc
  · exact le_of_lt (lt_of_lt_of_le hwin (not_lt.mp hc))

/-- `call_timer` either leaves the store unchanged (delete lost the race)
or deletes the live row and appends the archive row. -/
theorem call_timer_fst (t : Timer) (s : Store) :
    (TimerManager.call_timer t s).1 = s ∨
    (TimerManager.call_timer t s).1
      = { timers := s.timers.filter (fun r => r.id != t.id)
          timer_storage :=
            s.timer_storage ++ [⟨t.event, t.extra, t.created_at, t.expires, t.precise⟩]
          next_id := s.next_id } := by
  by_cases h : s.timers.any (fun r => r.id == t.id) = true
  · right
    rw [call_timer_found h]
  · left
    have herr : Timer.delete t s = Except.error ⟨t.id⟩ := by
      rw [delete_eq_error_iff]
      intro r hr he
      exact h (any_id_of_mem ⟨r, hr, he⟩)
    rw [call_timer_not_found herr]

/-- The live table after `call_timer` is a sublist of the one before. -/
theorem call_timer_timers_sublist (t : Timer) (s : Store) :
    ((TimerManager.call_timer t s).1.timers).Sublist s.timers := by
  rcases call_timer_fst t s with h | h
  · rw [h]
  · rw [h]
    exact List.filter_sublist _

/-- Every timer dispatched by a run of the loop has expiry above any strict
lower bound on the expiries of the live rows at the start of the run. -/
theorem dispatch_timers_lower_bound (c : Int) :
    ∀ (fuel : Nat) (now : Int) (s : Store), (∀ u ∈ s.timers, c < u.expires) →
      ∀ x ∈ TimerManager.dispatch_timers fuel now s, c < x.expires := by
  intro fuel
  induction fuel with
  | zero =>
    intro now s hb x hx
    simp [TimerManager.dispatch_timers] at hx
  | succ fuel ih =>
    intro now s hb x hx
    unfold TimerManager.dispatch_timers at hx
    cases hg : TimerManager.get_active_timer s now 40 with
    | none =>
      rw [hg] at hx
      simp at hx
    | some timer =>
      rw [hg] at hx
      dsimp only at hx
      have hrest : ∀ y ∈ TimerManager.dispatch_timers fuel (max now timer.expires)
          (TimerManager.call_timer timer s).1, c < y.expires := by
        apply ih
        intro u hu
        exact hb u ((call_timer_timers_sublist timer s).subset hu)
      by_cases hsome : ((TimerManager.call_timer timer s).2).isSome = true
      · rw [if_pos hsome] at hx
        rcases List.mem_cons.mp hx with hx | hx
        · subst hx
          obtain ⟨r, hrmem, hrt, _, _⟩ := get_active_timer_some hg
          subst hrt
          exact hb r hrmem
        · exact hrest x hx
      · rw [if_neg hsome] at hx
        exact hrest x hx

/-- One-step reduction of the dispatch loop when a timer is found and its
delete succeeds. -/
theorem dispatch_timers_succ_found {fuel : Nat} {now : Int} {s : Store} {timer : Timer}
    (hg : TimerManager.get_active_timer s now 40 = some timer)
    (hsome : ((TimerManager.call_timer timer s).2).isSome = true) :
    TimerManager.dispatch_timers (fuel + 1) now s
      = timer :: TimerManager.dispatch_timers fuel (max now timer.expires)
          (TimerManager.call_timer timer s).1 := by
  unfold TimerManager.dispatch_timers
  rw [hg]
  dsimp only
  rw [if_pos hsome, TimerManager.dispatch_timers.eq_def]

/-- One-step reduction of the dispatch loop when no timer is in the
horizon. -/
theorem dispatch_timers_succ_none {fuel : Nat} {now : Int} {s : Store}
    (hg : TimerManager.get_active_timer s now 40 = none) :
    TimerManager.dispatch_timers (fuel + 1) now s = [] := by
  unfold TimerManager.dispatch_timers
  rw [hg]

/-! Claim theorems. -/

/-- C4: when the live rows carry pairwise distinct expiries, a sequential
run of the dispatch loop hands timers to the dispatch sink in strictly
ascending order of expiry, so no timer is dispatched while another live
timer with strictly earlier expiry is still in the store. -/
theorem C4_dispatch_order (fuel : Nat) (now : Int) (s : Store)
    (h : s.timers.Pairwise (fun a b => a.expires ≠ b.expires)) :
    (TimerManager.dispatch_timers fuel now s).Pairwise
      (fun a b => a.expires < b.expires) := by
  induction fuel generalizing now s with
  | zero => simp [TimerManager.dispatch_timers]
  | succ fuel ih =>
    cases hg : TimerManager.get_active_timer s now 40 with
    | none =>
      rw [dispatch_timers_succ_none hg]
      exact List.Pairwise.nil
    | some timer =>
      have hmin := get_active_timer_min hg
      obtain ⟨r, hrmem, hrt, hwin, _⟩ := get_active_timer_some hg
      have hid : ∃ r2 ∈ s.timers, r2.id = timer.id := ⟨r, hrmem, by rw [hrt]; rfl⟩
      have hfound := call_timer_found (any_id_of_mem hid)
      have hsome : ((TimerManager.call_timer timer s).2).isSome = true := by
        rw [hfound]; rfl
      rw [dispatch_timers_succ_found hg hsome, List.pairwise_cons]
      constructor
      · intro y hy
        refine dispatch_timers_lower_bound timer.expires fuel (max now timer.expires)
          (TimerManager.call_timer timer s).1 ?_ y hy
        intro u hu
        rw [hfound] at hu
        have hu2 : u ∈ s.timers.filter (fun r2 => r2.id != timer.id) := hu
        have hmemu := List.mem_filter.mp hu2
        have hneid : u.id ≠ timer.id := by simpa using hmemu.2
        rcases lt_or_eq_of_le (hmin u hmemu.1) with hlt | heq
        · exact hlt
        · exfalso
          have hru : r ≠ u := by
            intro he
            apply hneid
            rw [← he, hrt]
            rfl
          have hsym : Symmetric (fun a b : Record => a.expires ≠ b.expires) :=
            fun a b hab => fun e => hab e.symm
          have hneq := (List.Pairwise.forall hsym h) hrmem hmemu.1 hru
          apply hneq
          have hte : timer.expires = r.expires := by rw [hrt]; rfl
          rw [← hte]
          exact heq
      · exact ih _ _ (List.Pairwise.sublist (call_timer_timers_sublist timer s) h)

/-- Witness for C4 at concrete data. -/
theorem C4_dispatch_order_witness :
    (TimerManager.dispatch_timers 2 0 twoStore).Pairwise
      (fun a b => a.expires < b.expires) :=
  C4_dispatch_order 2 0 twoStore
    (by simp [twoStore, sampleRecord, sampleRecord2, List.pairwise_cons])

/-- C1: for every timer whose id is present in the live timers table,
`call_timer` removes that row from the live table, inserts a row carrying
the same event, extra, created, expires and precise field values into the
`timer_storage` archive table, and dispatches the event of the timer; the
archive insert is applied to the post-delete store, so it happens only
after a successful delete. -/
theorem C1_call_timer_archives (t : Timer) (s : Store)
    (h : ∃ r ∈ s.timers, r.id = t.id) :
    (TimerManager.call_timer t s).1.timers = s.timers.filter (fun r => r.id != t.id) ∧
    (∀ r ∈ (TimerManager.call_timer t s).1.timers, r.id ≠ t.id) ∧
    (TimerManager.call_timer t s).1.timer_storage =
      s.timer_storage ++ [⟨t.event, t.extra, t.created_at, t.expires, t.precise⟩] ∧
    ((TimerManager.call_timer t s).2).isSome = true := by
  rw [call_timer_found (any_id_of_mem h)]
  refine ⟨rfl, ?_, rfl, rfl⟩
  intro r hr
  have hmem := List.mem_filter.mp hr
  simpa using hmem.2

/-- Witness for C1 at concrete data. -/
theorem C1_call_timer_archives_witness :
    (TimerManager.call_timer sampleTimer sampleStore).1.timers = [] ∧
    ((TimerManager.call_timer sampleTimer sampleStore).2).isSome = true := by
  have h := C1_call_timer_archives sampleTimer sampleStore
    ⟨sampleRecord, by simp [sampleStore], rfl⟩
  refine ⟨?_, h.2.2.2⟩
  rw [h.1]
  rfl

/-- C2: `Timer.delete` raises `TimerNotFound` exactly when no live row has
the id of the timer; a second delete after a successful one raises; and
when the delete inside `call_timer` raises, `call_timer` returns with the
store unchanged (no archive row) and no dispatch. -/
theorem C2_delete_not_found (t : Timer) (s : Store) :
    (Timer.delete t s = Except.error ⟨t.id⟩ ↔ ∀ r ∈ s.timers, r.id ≠ t.id) ∧
    (∀ s1, Timer.delete t s = Except.ok s1 → Timer.delete t s1 = Except.error ⟨t.id⟩) ∧
    (Timer.delete t s = Except.error ⟨t.id⟩ → TimerManager.call_timer t s = (s, none)) := by
  refine ⟨delete_eq_error_iff, ?_, call_timer_not_found⟩
  intro s1 hok
  have hs1 := delete_eq_ok_inv hok
  subst hs1
  rw [delete_eq_error_iff]
  intro r hr
  have hmem := List.mem_filter.mp hr
  simpa using hmem.2

/-- Witness for C2 at concrete data. -/
theorem C2_delete_not_found_witness :
    Timer.delete sampleTimer
        { timers := [], timer_storage := [], next_id := 2 }
      = Except.error ⟨sampleTimer.id⟩ :=
  (C2_delete_not_found sampleTimer { timers := [], timer_storage := [], next_id := 2 }).1.mpr
    (by simp)

/-- C7 counterexample: the event name is not the event tag followed by the
suffix `_complete`; for the event tag `ping` the derived name is
`ping_timer_complete`. -/
theorem C7_counterexample :
    (Timer.ofRecord bareRecord).event_name ≠ bareRecord.event ++ "_complete" := by
  decide

/-- C7 amended: for a timer constructed from a record, `event_name` is the
deterministic function of the event field appending `_timer_complete`; the
cached slot property computes it once, stores it in the slot, and every
later access returns the same string. -/
theorem C7_event_name (record : Record) :
    (Timer.ofRecord record).event_name = record.event ++ "_timer_complete" ∧
    ((Timer.ofRecord record).event_name_cached).1 = record.event ++ "_timer_complete" ∧
    ((Timer.ofRecord record).event_name_cached).2.cs_event_name
      = some (record.event ++ "_timer_complete") ∧
    (((Timer.ofRecord record).event_name_cached).2.event_name_cached).1
      = ((Timer.ofRecord record).event_name_cached).1 :=
  ⟨rfl, rfl, rfl, rfl⟩

/-- C9: a timer already overdue when the loop examines it causes no sleep,
and the loop proceeds directly to `call_timer`, which dispatches whenever
the timer is still live. -/
theorem C9_overdue_no_sleep (timer : Timer) (now : Int) (s : Store)
    (h : timer.expires < now) :
    (TimerManager.loop_iteration timer now s).1 = none ∧
    (TimerManager.loop_iteration timer now s).2 = TimerManager.call_timer timer s ∧
    ((∃ r ∈ s.timers, r.id = timer.id) →
      ((TimerManager.loop_iteration timer now s).2.2).isSome = true) := by
  refine ⟨?_, rfl, ?_⟩
  · unfold TimerManager.loop_iteration
    simp [not_le.mpr h]
  · intro hex
    show ((TimerManager.call_timer timer s).2).isSome = true
    rw [call_timer_found (any_id_of_mem hex)]
    rfl

/-- Witness for C9 at concrete data. -/
theorem C9_overdue_no_sleep_witness :
    (TimerManager.loop_iteration sampleTimer 200 sampleStore).1 = none ∧
    ((TimerManager.loop_iteration sampleTimer 200 sampleStore).2.2).isSome = true := by
  have h := C9_overdue_no_sleep sampleTimer 200 sampleStore (by decide)
  exact ⟨h.1, h.2.2 ⟨sampleRecord, by simp [sampleStore], rfl⟩⟩

/-- C10: constructing a timer from a record whose extra payload lacks the
`args` or `kwargs` key yields the empty list or empty dictionary default,
and all other fields are taken verbatim from the record. -/
theorem C10_ofRecord_defaults (record : Record) :
    (record.extra.find? (fun kv => kv.fst == "args") = none →
      (Timer.ofRecord record).args = JSON.arr []) ∧
    (record.extra.find? (fun kv => kv.fst == "kwargs") = none →
      (Timer.ofRecord record).kwargs = JSON.obj []) ∧
    (Timer.ofRecord record).id = record.id ∧
    (Timer.ofRecord record).event = record.event ∧
    (Timer.ofRecord record).created_at = record.created ∧
    (Timer.ofRecord record).expires = record.expires ∧
    (Timer.ofRecord record).precise = record.precise := by
  refine ⟨?_, ?_, rfl, rfl, rfl, rfl, rfl⟩ <;>
    · intro h
      simp [Timer.ofRecord, jsonGet, h]

/-- C3: when `create_timer` inserts a timer whose expiry is strictly earlier
than the expiry of the currently tracked `_current_timer`, the in-flight
dispatch task is cancelled and a fresh one is started, and the new row is
inserted into the live table. -/
theorem C3_create_timer_preempts (st : SchedState) (when now : Int) (event : String)
    (args : List JSON) (kwargs : List (String × JSON)) (precise : Bool) (ct : Timer)
    (hct : st.current_timer = some ct) (hwhen : when < ct.expires) :
    (TimerManager.create_timer st when now event args kwargs precise).2.task_restarts
        = st.task_restarts + 1 ∧
    (TimerManager.create_timer st when now event args kwargs precise).2.store.timers
        = st.store.timers ++
          [{ id := st.store.next_id, event := event
             extra := [("args", JSON.arr args), ("kwargs", JSON.obj kwargs)]
             created := now, expires := when, precise := precise }] := by
  unfold TimerManager.create_timer
  rw [hct]
  simp [hwhen]

/-- Witness for C3 at concrete data. -/
theorem C3_create_timer_preempts_witness :
    (TimerManager.create_timer sampleSched 50 0 "pong" [] [] true).2.task_restarts
        = sampleSched.task_restarts + 1 :=
  (C3_create_timer_preempts sampleSched 50 0 "pong" [] [] true sampleTimer rfl
    (by decide)).1

/-- C5: `get_active_timer` returns none exactly when no live timer expires
strictly before `now + days`; otherwise it returns a timer built from a live
row inside that window whose expiry is less than or equal to the expiry of
every other live timer in the window. -/
theorem C5_get_active_timer (s : Store) (now days : Int) :
    (TimerManager.get_active_timer s now days = none ↔
      ∀ r ∈ s.timers, ¬ r.expires < now + days * 86400) ∧
    (∀ t, TimerManager.get_active_timer s now days = some t →
      (∃ r ∈ s.timers, t = Timer.ofRecord r ∧ t.expires < now + days * 86400) ∧
      ∀ u ∈ s.timers, u.expires < now + days * 86400 → t.expires ≤ u.expires) := by
  refine ⟨get_active_timer_none_iff, ?_⟩
  intro t ht
  obtain ⟨r, hrmem, hrt, hwin, hmin⟩ := get_active_timer_some ht
  subst hrt
  exact ⟨⟨r, hrmem, rfl, hwin⟩, fun u hu hc => hmin u hu hc⟩

/-- Witness for C5 at concrete data. -/
theorem C5_get_active_timer_witness :
    (∃ r ∈ sampleStore.timers, sampleTimer = Timer.ofRecord r ∧
      sampleTimer.expires < 0 + 7 * 86400) ∧
    ∀ u ∈ sampleStore.timers, u.expires < 0 + 7 * 86400 →
      sampleTimer.expires ≤ u.expires :=
  (C5_get_active_timer sampleStore 0 7).2 sampleTimer rfl

/-- C6: a timer created through `create_timer` carries the freshly assigned
id and the given event; when dispatched by `call_timer` with `precise` true
the dispatch unpacks positional and keyword arguments structurally equal to
the originals, and with `precise` false it passes a single timer object
whose id and event match the created timer. -/
theorem C6_payload_round_trip (st : SchedState) (when now : Int) (event : String)
    (args : List JSON) (kwargs : List (String × JSON)) (precise : Bool) :
    (TimerManager.create_timer st when now event args kwargs precise).1.id
        = st.store.next_id ∧
    (TimerManager.create_timer st when now event args kwargs precise).1.event = event ∧
    (TimerManager.create_timer st when now event args kwargs precise).1.args
        = JSON.arr args ∧
    (TimerManager.create_timer st when now event args kwargs precise).1.kwargs
        = JSON.obj kwargs ∧
    (TimerManager.call_timer
        (TimerManager.create_timer st when now event args kwargs precise).1
        (TimerManager.create_timer st when now event args kwargs precise).2.store).2
      = some ⟨event ++ "_timer_complete",
          if precise then DispatchArgs.unpacked (JSON.arr args) (JSON.obj kwargs)
          else DispatchArgs.timer
            ((TimerManager.create_timer st when now event args kwargs
                precise).1.event_name_cached).2⟩ ∧
    ((TimerManager.create_timer st when now event args kwargs
        precise).1.event_name_cached).2.id = st.store.next_id ∧
    ((TimerManager.create_timer st when now event args kwargs
        precise).1.event_name_cached).2.event = event := by
  refine ⟨rfl, rfl, rfl, rfl, ?_, rfl, rfl⟩
  have hmem : ∃ r ∈ (TimerManager.create_timer st when now event args kwargs
      precise).2.store.timers,
      r.id = (TimerManager.create_timer st when now event args kwargs precise).1.id := by
    refine ⟨{ id := st.store.next_id, event := event
              extra := [("args", JSON.arr args), ("kwargs", JSON.obj kwargs)]
              created := now, expires := when, precise := precise }, ?_, rfl⟩
    show _ ∈ st.store.timers ++ [_]
    exact List.mem_append_right _ (List.mem_singleton.mpr rfl)
  rw [call_timer_found (any_id_of_mem hmem)]
  rfl

/-- C8 counterexample: a waiter using the default 7 day window, woken by a
`create_timer` thirty days out (which sets the data-available signal, thirty
days being inside the 40 day horizon), retries the query, finds nothing in
its window and returns no timer. -/
theorem C8_counterexample :
    (TimerManager.create_timer initSched 2592000 0 "ping" [] [] true).2.have_data
        = true ∧
    (TimerManager.wait_for_active_timers initSched 0 7
        (TimerManager.create_timer initSched 2592000 0 "ping" [] [] true).2.store 0).1
      = none :=
  ⟨rfl, rfl⟩

/-- C8 amended: `wait_for_active_timers` returns immediately when the first
query finds a candidate; otherwise it clears the current-timer marker,
blocks until the data-available signal is set, and returns the result of the
retried query, which is no timer when nothing falls inside the window at
retry time. -/
theorem C8_wait_for_active_timers (st : SchedState) (now days : Int)
    (retry_store : Store) (retry_now : Int) :
    (∀ t, TimerManager.get_active_timer st.store now days = some t →
      TimerManager.wait_for_active_timers st now days retry_store retry_now
        = (some t, { st with have_data := true })) ∧
    (TimerManager.get_active_timer st.store now days = none →
      TimerManager.wait_for_active_timers st now days retry_store retry_now
        = (TimerManager.get_active_timer retry_store retry_now days,
           { st with store := retry_store, have_data := true,
                     current_timer := none })) := by
  constructor
  · intro t ht
    unfold TimerManager.wait_for_active_timers
    rw [ht]
  · intro hn
    unfold TimerManager.wait_for_active_timers
    rw [hn]

/-- Witness for the amended C8 at concrete data. -/
theorem C8_wait_for_active_timers_witness :
    TimerManager.wait_for_active_timers waiterSched 0 7 sampleStore 0
      = (some sampleTimer, { waiterSched with have_data := true }) :=
  (C8_wait_for_active_timers waiterSched 0 7 sampleStore 0).1 sampleTimer rfl

/-- Witness for C10 at concrete data. -/
theorem C10_ofRecord_defaults_witness :
    (Timer.ofRecord bareRecord).args = JSON.arr [] ∧
    (Timer.ofRecord bareRecord).kwargs = JSON.obj [] :=
  ⟨(C10_ofRecord_defaults bareRecord).1 rfl, (C10_ofRecord_defaults bareRecord).2.1 rfl⟩

end FuryBot
